import Mathlib

/-!
Shallow embedding of the torchlight-infinity-bot decision core
(ProcessMemoryReader sources) and verification of its specification.

Machine floats of the C++ source are modelled as rationals, and the
steady-clock time points as natural numbers of milliseconds.  The
`union`-style per-kind payload of `EntityManager::Entity` is flattened:
the monster payload's `isElite` flag becomes a plain field.
-/

namespace TorchBot

/-- EntityManager::EntityType (EntityManager.h). -/
inductive EntityType where
  | unknown
  | player
  | monster
  | boss
  | npc
  | item
  | chest
  | portal
  | waypoint
  | seasonalObject
deriving DecidableEq, Repr

/-- EntityManager::Entity (EntityManager.h): positions and health as
rationals, `lastSeen` as steady-clock milliseconds, the monster
payload's `isElite` flag inlined. -/
structure Entity where
  id : Nat
  type : EntityType
  x : ℚ
  y : ℚ
  z : ℚ
  health : ℚ
  maxHealth : ℚ
  isAlive : Bool
  isTargetable : Bool
  level : ℤ
  isElite : Bool
  lastSeen : Nat
deriving DecidableEq, Repr

/-- GameState::PlayerData (GameState.h), the fields the decision core reads. -/
structure PlayerData where
  x : ℚ
  y : ℚ
  z : ℚ
  health : ℚ
  maxHealth : ℚ
  level : ℤ
  inCombat : Bool
  isDead : Bool
deriving DecidableEq, Repr

/-- GameState::isPlayerAlive (GameState.h line 87):
`return !m_player.isDead && m_player.health > 0;`. -/
def isPlayerAlive (p : PlayerData) : Bool :=
  !p.isDead && decide (0 < p.health)

/-- CombatSystem::CombatState (CombatSystem.h). -/
inductive CombatState where
  | idle
  | engaging
  | fighting
  | retreating
  | healing
  | kiting
  | bossFight
deriving DecidableEq, Repr

/-- TorchlightBot::BotState (TorchlightBot.h): the Orchestrator's
eight states. -/
inductive BotState where
  | idle
  | farming
  | combat
  | looting
  | navigating
  | bossFight
  | seasonalActivity
  | error
deriving DecidableEq, Repr

/-- The eight Orchestrator states, enumerated. -/
def allBotStates : List BotState :=
  [.idle, .farming, .combat, .looting, .navigating, .bossFight,
   .seasonalActivity, .error]

/-- The per-tick environment the Orchestrator observes: process
attachment, the player snapshot, the entity set after the tick's
refresh, season/navigation/combat collaborator status, the outcome of a
re-attachment attempt in the Error handler, and whether an exception is
raised while the tick's state handler runs (the `catch` path of
`botMainLoop`). -/
structure Env where
  attached : Bool
  player : PlayerData
  entities : List Entity
  engagementRange : ℚ
  hasActiveSeason : Bool
  navNavigating : Bool
  navReachedGoal : Bool
  combatState : CombatState
  combatFightingBoss : Bool
  attachSuccess : Bool
  fault : Bool
deriving DecidableEq, Repr

/-- Squared planar distance between an entity and a point, as computed
inside EntityManager::getNearbyEntities. -/
def entityDistSq (e : Entity) (x y : ℚ) : ℚ :=
  (e.x - x) * (e.x - x) + (e.y - y) * (e.y - y)

/-- EntityManager::getNearbyEntities (EntityManager.cpp lines 44-59):
keeps every entity whose squared distance is within the squared radius,
with no filtering on kind or liveness. -/
def getNearbyEntities (x y radius : ℚ) (es : List Entity) : List Entity :=
  es.filter (fun e => decide (entityDistSq e x y ≤ radius * radius))

/-- EntityManager::hasNearbyEnemies (EntityManager.cpp lines 149-151):
`return !getNearbyEntities(x, y, radius).empty();`. -/
def hasNearbyEnemies (x y radius : ℚ) (es : List Entity) : Bool :=
  !(getNearbyEntities x y radius es).isEmpty

/-- EntityManager::hasLootableItems (EntityManager.cpp lines 153-163):
true when some nearby entity has kind ITEM. -/
def hasLootableItems (x y radius : ℚ) (es : List Entity) : Bool :=
  (getNearbyEntities x y radius es).any (fun e => e.type == .item)

/-- EntityManager::getTargetableEnemies (EntityManager.cpp lines 61-72). -/
def getTargetableEnemies (es : List Entity) : List Entity :=
  es.filter (fun e =>
    (e.type == .monster || e.type == .boss) && e.isAlive && e.isTargetable)

/-- EntityManager::findSeasonalObjects (EntityManager.cpp lines 145-147). -/
def findSeasonalObjects (es : List Entity) : List Entity :=
  es.filter (fun e => e.type == .seasonalObject)

/-- TorchlightBot::isGameValid (TorchlightBot.cpp lines 389-392):
process attached and player alive. -/
def isGameValid (env : Env) : Bool :=
  env.attached && isPlayerAlive env.player

/-- TorchlightBot::handleFarming (TorchlightBot.cpp lines 214-259).
The dead-player branch sleeps and returns, leaving the state FARMING.
`hasLootableItems` is called with its default 10-unit radius
(EntityManager.h line 120). -/
def handleFarming (env : Env) : BotState :=
  if !isPlayerAlive env.player then .farming
  else if hasNearbyEnemies env.player.x env.player.y env.engagementRange
      env.entities then .combat
  else if hasLootableItems env.player.x env.player.y 10 env.entities then
    .looting
  else if env.hasActiveSeason &&
      !(findSeasonalObjects env.entities).isEmpty then .seasonalActivity
  else if !env.navNavigating then .navigating
  else .farming

/-- TorchlightBot::handleCombat (TorchlightBot.cpp lines 261-275). -/
def handleCombat (env : Env) : BotState :=
  if env.combatState == .idle then .farming else .combat

/-- TorchlightBot::handleLooting (TorchlightBot.cpp lines 277-309): both
the empty-list branch and the loot-processing fallthrough end in
FARMING. -/
def handleLooting (_env : Env) : BotState :=
  .farming

/-- TorchlightBot::handleNavigation (TorchlightBot.cpp lines 311-317). -/
def handleNavigation (env : Env) : BotState :=
  if env.navReachedGoal || !env.navNavigating then .farming else .navigating

/-- TorchlightBot::handleBossFight (TorchlightBot.cpp lines 319-325). -/
def handleBossFight (env : Env) : BotState :=
  if !env.combatFightingBoss then .farming else .bossFight

/-- TorchlightBot::handleSeasonalActivity (TorchlightBot.cpp
lines 327-340). -/
def handleSeasonalActivity (env : Env) : BotState :=
  if (findSeasonalObjects env.entities).isEmpty then .farming
  else .navigating

/-- TorchlightBot::handleError (TorchlightBot.cpp lines 342-357). -/
def handleError (env : Env) : BotState :=
  if !isGameValid env then
    if env.attachSuccess then .farming else .error
  else .farming

/-- One tick of TorchlightBot::botMainLoop (TorchlightBot.cpp
lines 152-212): the precondition check routes to ERROR, an exception in
the tick body is caught and also routes to ERROR, otherwise the current
state's handler runs. -/
def step (env : Env) (s : BotState) : BotState :=
  if !isGameValid env then .error
  else if env.fault then .error
  else
    match s with
    | .idle => .idle
    | .farming => handleFarming env
    | .combat => handleCombat env
    | .looting => handleLooting env
    | .navigating => handleNavigation env
    | .bossFight => handleBossFight env
    | .seasonalActivity => handleSeasonalActivity env
    | .error => handleError env

/-- The control loop over a finite schedule of tick environments; the
loop itself only ends when `m_running` is cleared externally, which the
schedule's end models. -/
def runTicks (envs : List Env) (s : BotState) : BotState :=
  envs.foldl (fun st e => step e st) s

/-- ConfigManager default tick rate in milliseconds
(ConfigManager.h line 20, TorchlightBot.h line 62). -/
def defaultTickRateMs : Nat := 50

/-- EntityManager::removeStaleEntities (EntityManager.cpp
lines 216-235): an entity is erased exactly when `now - lastSeen`
exceeds the five-second threshold, expressed here in milliseconds. -/
def removeStaleEntities (now : Nat) (es : List Entity) : List Entity :=
  es.filter (fun e => !decide (5000 < now - e.lastSeen))

/-- One candidate comparison inside EntityManager::findNearestEnemy:
keep the current best unless this entity is an alive, targetable
monster or boss that is strictly closer. -/
def nearestStep (px py : ℚ) (best : Option Entity) (e : Entity) :
    Option Entity :=
  if (e.type == .monster || e.type == .boss) && e.isAlive &&
      e.isTargetable then
    match best with
    | none => some e
    | some b =>
      if entityDistSq e px py < entityDistSq b px py then some e
      else some b
  else best

/-- EntityManager::findNearestEnemy (EntityManager.cpp lines 93-113):
scans the entity set for the closest alive, targetable monster or boss
by squared distance. -/
def findNearestEnemy (px py : ℚ) (es : List Entity) : Option Entity :=
  es.foldl (nearestStep px py) none

/-- EntityManager::calculateThreatLevel (EntityManager.cpp
lines 303-323): base 1.0 plus one tenth per level of difference to the
player, tripled for bosses, doubled for elite monsters, clamped below
at 0.1. -/
def calculateThreatLevel (playerLevel : ℤ) (e : Entity) : ℚ :=
  let base : ℚ := 1 + ((e.level - playerLevel : ℤ) : ℚ) * (1 / 10)
  let t1 : ℚ := if e.type = .boss then base * 3 else base
  let t2 : ℚ := if e.type = .monster ∧ e.isElite then t1 * 2 else t1
  max (1 / 10) t2

/-! Concrete snapshots used to exercise the definitions. -/

/-- A healthy level-12 player at the origin. -/
def playerAlive : PlayerData :=
  { x := 0, y := 0, z := 0, health := 100, maxHealth := 100, level := 12,
    inCombat := false, isDead := false }

/-- A dropped item 3 units from the origin: not a monster, not a boss,
not alive, not targetable. -/
def itemEntity : Entity :=
  { id := 1, type := .item, x := 3, y := 0, z := 0, health := 0,
    maxHealth := 0, isAlive := false, isTargetable := false, level := 0,
    isElite := false, lastSeen := 0 }

/-- An alive, targetable boss 5 units from the origin. -/
def bossEntity : Entity :=
  { id := 2, type := .boss, x := 5, y := 0, z := 0, health := 500,
    maxHealth := 500, isAlive := true, isTargetable := true, level := 12,
    isElite := false, lastSeen := 0 }

/-- A tick environment with an attached process, the healthy player, a
single dropped item nearby and the default 25-unit engagement range. -/
def envItem : Env :=
  { attached := true, player := playerAlive, entities := [itemEntity],
    engagementRange := 25, hasActiveSeason := false,
    navNavigating := false, navReachedGoal := false,
    combatState := .idle, combatFightingBoss := false,
    attachSuccess := false, fault := false }

/-- The same healthy environment but with an exception raised during the
tick's state handling. -/
def envFault : Env :=
  { envItem with fault := true }

/-- A healthy environment whose only entity is an alive, targetable
boss inside engagement range. -/
def envBoss : Env :=
  { envItem with entities := [bossEntity] }

/-- An attached environment whose player has zero health but an unset
death flag. -/
def envZeroHealth : Env :=
  { envItem with player := { playerAlive with health := 0 } }

/-! Handler range lemmas: which states each Orchestrator handler can
produce. -/

lemma handleFarming_mem (env : Env) :
    handleFarming env ∈
      [BotState.farming, .combat, .looting, .seasonalActivity,
       .navigating] := by
  unfold handleFarming
  repeat' split
  all_goals simp

lemma handleCombat_mem (env : Env) :
    handleCombat env ∈ [BotState.farming, .combat] := by
  unfold handleCombat
  split
  all_goals simp

lemma handleNavigation_mem (env : Env) :
    handleNavigation env ∈ [BotState.farming, .navigating] := by
  unfold handleNavigation
  split
  all_goals simp

lemma handleBossFight_mem (env : Env) :
    handleBossFight env ∈ [BotState.farming, .bossFight] := by
  unfold handleBossFight
  split
  all_goals simp

lemma handleSeasonalActivity_mem (env : Env) :
    handleSeasonalActivity env ∈ [BotState.farming, .navigating] := by
  unfold handleSeasonalActivity
  split
  all_goals simp

lemma handleError_mem (env : Env) :
    handleError env ∈ [BotState.farming, .error] := by
  unfold handleError
  repeat' split
  all_goals simp

/-- When the precondition holds, the Error handler always leaves the
Error state for Farming. -/
lemma handleError_of_valid (env : Env) (h : isGameValid env = true) :
    handleError env = .farming := by
  unfold handleError
  simp [h]

/-- On a valid, fault-free tick no handler produces the Error state. -/
lemma step_ne_error (env : Env) (s : BotState)
    (hv : isGameValid env = true) (hf : env.fault = false) :
    step env s ≠ .error := by
  unfold step
  simp only [hv, hf, Bool.not_true, Bool.false_eq_true, if_false, if_true]
  cases s with
  | idle => simp
  | farming =>
    have h := handleFarming_mem env
    simp at h
    rcases h with h | h | h | h | h <;> simp [h]
  | combat =>
    have h := handleCombat_mem env
    simp at h
    rcases h with h | h <;> simp [h]
  | looting => simp [handleLooting]
  | navigating =>
    have h := handleNavigation_mem env
    simp at h
    rcases h with h | h <;> simp [h]
  | bossFight =>
    have h := handleBossFight_mem env
    simp at h
    rcases h with h | h <;> simp [h]
  | seasonalActivity =>
    have h := handleSeasonalActivity_mem env
    simp at h
    rcases h with h | h <;> simp [h]
  | error => simp [handleError_of_valid env hv]

/-- C1 (code bug): in the Farming state, a lone dropped item inside
engagement range — with no alive, targetable monster or boss anywhere —
already makes `hasNearbyEnemies` true and drives the Orchestrator into
the Combat state, because `EntityManager::hasNearbyEnemies` tests
emptiness of `getNearbyEntities` without any kind/liveness filter. -/
theorem item_alone_triggers_combat :
    getTargetableEnemies envItem.entities = [] ∧
    hasNearbyEnemies envItem.player.x envItem.player.y
      envItem.engagementRange envItem.entities = true ∧
    step envItem .farming = .combat := by
  refine ⟨by decide, ?_, ?_⟩
  · simp [hasNearbyEnemies, getNearbyEntities, entityDistSq, envItem,
      itemEntity, playerAlive]
    norm_num
  · simp only [step, isGameValid, isPlayerAlive, handleFarming]
    norm_num [hasNearbyEnemies, getNearbyEntities, entityDistSq, envItem,
      itemEntity, playerAlive]

/-- C2 counterexample: a tick on which the precondition check passes
(process attached, player alive) but an exception is raised during
handling still enters the Error state, so "Error is entered iff the
per-tick precondition check fails" is false as stated. -/
theorem error_without_precondition_failure :
    isGameValid envFault = true ∧ envFault.fault = true ∧
    step envFault .farming = .error := by
  decide

/-- C2 (amended): on every tick the Orchestrator holds exactly one of
its eight states, and a tick's result state is Error if and only if the
per-tick precondition check fails that tick or an exception is raised
during the tick's state handling. -/
theorem step_error_iff :
    (∀ s : BotState, allBotStates.count s = 1) ∧
    (∀ (env : Env) (s : BotState),
      step env s = .error ↔
        (isGameValid env = false ∨ env.fault = true)) := by
  constructor
  · intro s
    cases s <;> decide
  · intro env s
    constructor
    · intro h
      by_cases hv : isGameValid env = true
      · by_cases hf : env.fault = true
        · exact Or.inr hf
        · exact absurd h
            (step_ne_error env s hv (Bool.not_eq_true _ ▸ hf))
      · exact Or.inl (Bool.not_eq_true _ ▸ hv)
    · intro h
      rcases h with h | h
      · unfold step
        simp [h]
      · unfold step
        by_cases hv : isGameValid env = true
        · simp [hv, h]
        · simp [Bool.not_eq_true _ ▸ hv]

/-- C2 witness: instantiating the amended equivalence on the concrete
faulty tick. -/
theorem step_error_iff_witness :
    step envFault .farming = .error :=
  (step_error_iff.2 envFault .farming).mpr (Or.inr (by decide))

/-- C4 (code bug): with an alive, targetable boss inside engagement
range the Farming handler transitions to Combat, not BossFight, and in
fact no tick ever moves the Orchestrator into the BossFight state from
any other state — `setState(BotState::BOSS_FIGHT)` is called nowhere in
TorchlightBot.cpp, so the boss-override of the spec is absent. -/
theorem bossFight_unreachable :
    (step envBoss .farming = .combat ∧
     bossEntity ∈ envBoss.entities ∧ bossEntity.type = .boss ∧
     bossEntity.isAlive = true ∧ bossEntity.isTargetable = true ∧
     entityDistSq bossEntity envBoss.player.x envBoss.player.y ≤
       envBoss.engagementRange * envBoss.engagementRange) ∧
    (∀ (env : Env) (s : BotState),
      s ≠ .bossFight → step env s ≠ .bossFight) := by
  constructor
  · refine ⟨?_, by decide, by decide, by decide, by decide, ?_⟩
    · simp only [step, isGameValid, isPlayerAlive, handleFarming]
      norm_num [hasNearbyEnemies, getNearbyEntities, entityDistSq,
        envBoss, envItem, bossEntity, playerAlive]
    · norm_num [entityDistSq, envBoss, envItem, bossEntity, playerAlive]
  · intro env s hs
    unfold step
    by_cases hv : isGameValid env = true
    · by_cases hf : env.fault = true
      · simp [hv, hf]
      · simp only [hv, Bool.not_true, Bool.false_eq_true, if_false,
          Bool.not_eq_true _ ▸ hf, if_true]
        cases s with
        | idle => simp
        | farming =>
          have h := handleFarming_mem env
          simp at h
          rcases h with h | h | h | h | h <;> simp [h]
        | combat =>
          have h := handleCombat_mem env
          simp at h
          rcases h with h | h <;> simp [h]
        | looting => simp [handleLooting]
        | navigating =>
          have h := handleNavigation_mem env
          simp at h
          rcases h with h | h <;> simp [h]
        | bossFight => exact absurd rfl hs
        | seasonalActivity =>
          have h := handleSeasonalActivity_mem env
          simp at h
          rcases h with h | h <;> simp [h]
        | error =>
          have h := handleError_mem env
          simp at h
          rcases h with h | h <;> simp [h]
    · simp [Bool.not_eq_true _ ▸ hv]

/-- C4 witness: the unreachability half applied on a concrete tick. -/
theorem bossFight_unreachable_witness :
    step envBoss .farming ≠ .bossFight :=
  bossFight_unreachable.2 envBoss .farming (by decide)

/-- C7: a tick on which an exception is raised during delegation ends
in the Error state, and the control loop keeps consuming the remaining
tick schedule from that Error state rather than terminating. -/
theorem fault_caught_as_error :
    ∀ (env : Env) (s : BotState), env.fault = true →
      step env s = .error ∧
      ∀ envs : List Env, runTicks (env :: envs) s = runTicks envs .error := by
  intro env s hf
  have h1 : step env s = .error := by
    unfold step
    by_cases hv : isGameValid env = true
    · simp [hv, hf]
    · simp [Bool.not_eq_true _ ▸ hv]
  refine ⟨h1, fun envs => ?_⟩
  simp [runTicks, h1]

/-- C7 witness: the faulty concrete tick is caught and converted. -/
theorem fault_caught_as_error_witness :
    step envFault .combat = .error :=
  (fault_caught_as_error envFault .combat (by decide)).1

/-- An entity whose last sighting lies six default ticks in the past. -/
def staleEnt : Entity :=
  { itemEntity with id := 7, lastSeen := 0 }

/-- An alive, targetable boss last seen 4000 ms ago. -/
def freshFoe : Entity :=
  { bossEntity with id := 8, lastSeen := 4000 }

/-- Outcome of one `nearestStep` comparison: the best candidate either
survives from the accumulator or is the entity just examined. -/
lemma nearestStep_cases (px py : ℚ) (acc : Option Entity) (a e : Entity)
    (h : nearestStep px py acc a = some e) :
    acc = some e ∨ e = a := by
  cases acc with
  | none =>
    unfold nearestStep at h
    repeat' split at h
    all_goals
      first
        | exact Or.inl h
        | exact Or.inr (Option.some.inj h).symm
        | simp_all
  | some b =>
    unfold nearestStep at h
    repeat' split at h
    all_goals
      first
        | exact Or.inl h
        | exact Or.inr (Option.some.inj h).symm
        | simp_all

/-- The nearest-enemy fold only ever returns the accumulator or a list
element. -/
lemma nearestFold_mem (px py : ℚ) :
    ∀ (es : List Entity) (acc : Option Entity) (e : Entity),
      es.foldl (nearestStep px py) acc = some e →
        acc = some e ∨ e ∈ es := by
  intro es
  induction es with
  | nil =>
    intro acc e h
    exact Or.inl h
  | cons a t ih =>
    intro acc e h
    simp only [List.foldl_cons] at h
    rcases ih (nearestStep px py acc a) e h with h1 | h1
    · rcases nearestStep_cases px py acc a e h1 with h2 | h2
      · exact Or.inl h2
      · exact Or.inr (h2 ▸ List.mem_cons_self a t)
    · exact Or.inr (List.mem_cons_of_mem a h1)

/-- EntityManager::findNearestEnemy only returns members of the entity
set it scans. -/
lemma findNearestEnemy_mem (px py : ℚ) (es : List Entity) (e : Entity)
    (h : findNearestEnemy px py es = some e) : e ∈ es := by
  rcases nearestFold_mem px py es none e h with h1 | h1
  · exact absurd h1 (by simp)
  · exact h1

/-- C3 counterexample: with the default 50 ms tick, an entity absent
for six ticks (300 ms) has been gone for longer than five ticks, yet
`removeStaleEntities` keeps it, because the code's grace window is five
seconds of wall-clock time, not five ticks. -/
theorem stale_five_ticks_not_evicted :
    5 * defaultTickRateMs < 6 * defaultTickRateMs - staleEnt.lastSeen ∧
    removeStaleEntities (6 * defaultTickRateMs) [staleEnt] =
      [staleEnt] := by
  constructor
  · decide
  · simp [removeStaleEntities, staleEnt, defaultTickRateMs]

/-- C3 (amended): the stale-entity pass keeps exactly the entities seen
within the last 5000 ms (five seconds, the code's threshold) and evicts
all others, and any entity produced by the next nearest-enemy targeting
pass over the cleaned set is a still-valid member seen within that
window — an evicted id can never be returned. -/
theorem removeStale_spec :
    (∀ (now : Nat) (es : List Entity) (e : Entity),
      e ∈ removeStaleEntities now es ↔
        (e ∈ es ∧ now - e.lastSeen ≤ 5000)) ∧
    (∀ (px py : ℚ) (now : Nat) (es : List Entity) (e : Entity),
      findNearestEnemy px py (removeStaleEntities now es) = some e →
        e ∈ es ∧ now - e.lastSeen ≤ 5000) := by
  have hmem : ∀ (now : Nat) (es : List Entity) (e : Entity),
      e ∈ removeStaleEntities now es ↔
        (e ∈ es ∧ now - e.lastSeen ≤ 5000) := by
    intro now es e
    simp [removeStaleEntities, List.mem_filter, Nat.not_lt]
  refine ⟨hmem, fun px py now es e h => ?_⟩
  exact (hmem now es e).mp (findNearestEnemy_mem px py _ e h)

/-- C3 witness: over a set holding one fresh boss, the targeting pass
returns that boss and the amended theorem certifies its recency. -/
theorem removeStale_spec_witness :
    freshFoe ∈ [freshFoe] ∧ 6000 - freshFoe.lastSeen ≤ 5000 :=
  removeStale_spec.2 0 0 6000 [freshFoe] freshFoe (by decide)

/-- C10: the player-alive query holds exactly when the death flag is
unset and health is strictly positive, so a snapshot with zero health
and an unset death flag is treated as dead and fails the Orchestrator's
per-tick precondition. -/
theorem isPlayerAlive_iff :
    (∀ p : PlayerData,
      isPlayerAlive p = true ↔ (p.isDead = false ∧ 0 < p.health)) ∧
    (∀ env : Env, env.player.health = 0 → isGameValid env = false) := by
  constructor
  · intro p
    simp [isPlayerAlive]
  · intro env h
    simp [isGameValid, isPlayerAlive, h]

/-- C10 witness: the zero-health, unset-death-flag snapshot fails the
precondition check. -/
theorem isPlayerAlive_iff_witness :
    isGameValid envZeroHealth = false :=
  isPlayerAlive_iff.2 envZeroHealth rfl

/-! Combat Engine: targeting and ability selection.  CombatSystem.h only
declares `calculateTargetPriority`, `findBestTarget` and
`selectBestAbility`; no CombatSystem.cpp exists in the repository, so
the selection logic is modelled from the spec while the score itself is
the implemented `EntityManager::calculateThreatLevel`. -/

/-- CombatSystem::TacticsMode (CombatSystem.h). -/
inductive TacticsMode where
  | aggressive
  | defensive
  | balanced
  | bossOnly
  | kiting
deriving DecidableEq, Repr

/-- Modelled from the spec: the candidate filter of the missing
CombatSystem::getValidTargets — all alive, targetable enemies within
engagement range, with BossOnly tactics ignoring non-boss, non-elite
targets entirely (spec sections 4.2 and its tactics modes). -/
def validTargets (tactics : TacticsMode) (px py range : ℚ)
    (es : List Entity) : List Entity :=
  es.filter (fun e =>
    (e.type == .monster || e.type == .boss) && e.isAlive &&
      e.isTargetable &&
      decide (entityDistSq e px py ≤ range * range) &&
      (match tactics with
       | .bossOnly => e.type == .boss || e.isElite
       | _ => true))

/-- Modelled from the spec: one comparison of the missing
CombatSystem::findBestTarget — the higher threat score wins, with the
closer candidate preferred as the tie-break (spec section 4.2). -/
def betterCandidate (pl : ℤ) (px py : ℚ) (cur e : Entity) : Entity :=
  if calculateThreatLevel pl cur < calculateThreatLevel pl e then e
  else if calculateThreatLevel pl e = calculateThreatLevel pl cur ∧
      entityDistSq e px py < entityDistSq cur px py then e
  else cur

/-- Modelled from the spec: the missing CombatSystem::findBestTarget —
the highest-scoring candidate among the valid targets becomes the
primary target (spec section 4.2). -/
def findBestTarget (tactics : TacticsMode) (pl : ℤ) (px py range : ℚ)
    (es : List Entity) : Option Entity :=
  match validTargets tactics px py range es with
  | [] => none
  | c :: cs => some (cs.foldl (betterCandidate pl px py) c)

/-- A level-1 boss 5 units from the origin. -/
def lowBoss : Entity :=
  { bossEntity with id := 11, level := 1 }

/-- A level-12 common (non-elite) monster 4 units from the origin,
closer than `lowBoss` by 1 unit. -/
def monsterTwelve : Entity :=
  { bossEntity with
      id := 12, type := .monster, x := 4, level := 12, isElite := false }

/-- C5 counterexample: with the agent at level 12, a level-1 boss
(threat clamped to 0.1 by the level-delta term) scores strictly below a
level-12 common monster that is closer by 1 unit, and the monster — not
the boss — is selected under Balanced tactics. -/
theorem boss_not_always_preferred :
    entityDistSq monsterTwelve 0 0 = 4 * 4 ∧
    entityDistSq lowBoss 0 0 = 5 * 5 ∧
    calculateThreatLevel 12 lowBoss <
      calculateThreatLevel 12 monsterTwelve ∧
    findBestTarget .balanced 12 0 0 25 [lowBoss, monsterTwelve] =
      some monsterTwelve := by
  refine ⟨?_, ?_, ?_, ?_⟩
  · norm_num [entityDistSq, monsterTwelve, bossEntity]
  · norm_num [entityDistSq, lowBoss, bossEntity]
  · norm_num [calculateThreatLevel, lowBoss, monsterTwelve, bossEntity]
    rw [if_neg (by simp : ¬(EntityType.monster = EntityType.boss))]
    norm_num
  · simp only [findBestTarget, validTargets]
    norm_num [entityDistSq, lowBoss, monsterTwelve, bossEntity,
      betterCandidate, calculateThreatLevel]

/-- The threat score of a boss whose level is at most nine below the
player reduces to three times the unclamped base. -/
lemma threat_boss (pl : ℤ) (b : Entity) (hb : b.type = .boss)
    (hl : -9 ≤ b.level - pl) :
    calculateThreatLevel pl b =
      (1 + ((b.level - pl : ℤ) : ℚ) * (1 / 10)) * 3 := by
  have hq : (-9 : ℚ) ≤ ((b.level - pl : ℤ) : ℚ) := by
    exact_mod_cast hl
  have hle : (1 / 10 : ℚ) ≤ (1 + ((b.level - pl : ℤ) : ℚ) * (1 / 10)) * 3 := by
    nlinarith
  unfold calculateThreatLevel
  simp only [hb]
  rw [if_neg (show ¬(EntityType.boss = EntityType.monster ∧
        b.isElite = true) by simp),
    if_pos trivial]
  exact max_eq_right hle

/-- The threat score of a non-elite monster whose level is at most nine
below the player reduces to the unclamped base. -/
lemma threat_common_monster (pl : ℤ) (m : Entity)
    (hm : m.type = .monster) (he : m.isElite = false)
    (hl : -9 ≤ m.level - pl) :
    calculateThreatLevel pl m =
      1 + ((m.level - pl : ℤ) : ℚ) * (1 / 10) := by
  have hq : (-9 : ℚ) ≤ ((m.level - pl : ℤ) : ℚ) := by
    exact_mod_cast hl
  have hle : (1 / 10 : ℚ) ≤ 1 + ((m.level - pl : ℤ) : ℚ) * (1 / 10) := by
    nlinarith
  unfold calculateThreatLevel
  simp only [hm, he]
  rw [if_neg (by simp : ¬(True ∧ false = true)),
    if_neg (by simp : ¬(EntityType.monster = EntityType.boss))]
  exact max_eq_right hle

/-- C5 (amended): the boss multiplier dominates only when the
level-delta terms cannot flip the comparison; for a boss and a common
monster of equal level, both within engagement range and at most nine
levels below the agent, the boss scores strictly higher and is selected
as primary target under Balanced tactics, whatever their distances. -/
theorem boss_preferred_at_equal_level (pl : ℤ) (px py range : ℚ)
    (b m : Entity)
    (hb : b.type = .boss) (hba : b.isAlive = true)
    (hbt : b.isTargetable = true)
    (hbr : entityDistSq b px py ≤ range * range)
    (hm : m.type = .monster) (hma : m.isAlive = true)
    (hmt : m.isTargetable = true)
    (hmr : entityDistSq m px py ≤ range * range)
    (hme : m.isElite = false)
    (heq : b.level = m.level) (hl : -9 ≤ m.level - pl) :
    calculateThreatLevel pl m < calculateThreatLevel pl b ∧
    findBestTarget .balanced pl px py range [m, b] = some b := by
  have hq : (-9 : ℚ) ≤ ((m.level - pl : ℤ) : ℚ) := by
    exact_mod_cast hl
  have hbs := threat_boss pl b hb (heq ▸ hl)
  have hms := threat_common_monster pl m hm hme hl
  have hgt : calculateThreatLevel pl m < calculateThreatLevel pl b := by
    rw [hbs, hms, heq]
    nlinarith
  refine ⟨hgt, ?_⟩
  have hv : validTargets .balanced px py range [m, b] = [m, b] := by
    simp [validTargets, hb, hba, hbt, hm, hma, hmt, hbr, hmr]
  simp only [findBestTarget, hv, List.foldl_cons, List.foldl_nil]
  unfold betterCandidate
  rw [if_pos hgt]

/-- C5 witness: the amended selection at equal level 12, boss at
distance 5, monster at distance 4 on a 25-unit engagement range. -/
theorem boss_preferred_at_equal_level_witness :
    calculateThreatLevel 12 { monsterTwelve with level := 12 } <
      calculateThreatLevel 12 { bossEntity with level := 12 } ∧
    findBestTarget .balanced 12 0 0 25
      [{ monsterTwelve with level := 12 },
       { bossEntity with level := 12 }] =
      some { bossEntity with level := 12 } :=
  boss_preferred_at_equal_level 12 0 0 25
    { bossEntity with level := 12 } { monsterTwelve with level := 12 }
    rfl rfl rfl
    (by norm_num [entityDistSq, bossEntity])
    rfl rfl rfl
    (by norm_num [entityDistSq, monsterTwelve, bossEntity])
    rfl rfl (by decide)

/-- CombatSystem::AbilityInfo (CombatSystem.h lines 38-56): the float
cooldown in seconds becomes a rational, the last-used steady-clock time
point becomes milliseconds, and the `std::function` recheck predicate is
replaced by its value on the current tick. -/
structure AbilityInfo where
  name : String
  keyBinding : Nat
  cooldown : ℚ
  range : ℚ
  manaCost : ℚ
  isOffensive : Bool
  isDefensive : Bool
  isMovement : Bool
  priority : ℤ
  conditionOk : Bool
  lastUsed : Nat
deriving DecidableEq, Repr

/-- AbilityInfo::isOnCooldown (CombatSystem.h lines 51-55):
`elapsed.count() < (cooldown * 1000)` with elapsed in milliseconds. -/
def isOnCooldown (now : Nat) (a : AbilityInfo) : Bool :=
  decide (((now - a.lastUsed : Nat) : ℚ) < a.cooldown * 1000)

/-- The three ability roles of spec section 4.2. -/
inductive AbilityRole where
  | offensive
  | defensive
  | movement
deriving DecidableEq, Repr

/-- Role-flag match for an intent. -/
def roleMatches (r : AbilityRole) (a : AbilityInfo) : Bool :=
  match r with
  | .offensive => a.isOffensive
  | .defensive => a.isDefensive
  | .movement => a.isMovement

/-- Modelled from the spec: the usability test of the missing
CombatSystem::canUseAbility — role matches the intent, the recheck
predicate passes, and the ability is off cooldown (spec section 4.2). -/
def abilityUsable (now : Nat) (r : AbilityRole) (a : AbilityInfo) : Bool :=
  roleMatches r a && a.conditionOk && !isOnCooldown now a

/-- Modelled from the spec: one comparison of the missing
CombatSystem::selectBestAbility — higher static priority wins, ties
broken by the shorter declared cooldown (spec section 4.2). -/
def abilityBetter (cur a : AbilityInfo) : AbilityInfo :=
  if cur.priority < a.priority then a
  else if a.priority = cur.priority ∧ a.cooldown < cur.cooldown then a
  else cur

/-- Modelled from the spec: the missing CombatSystem::selectBestAbility
— among the usable abilities of the requested role, pick the highest
static-priority one, ties broken by shortest cooldown (spec
section 4.2). -/
def selectBestAbility (now : Nat) (r : AbilityRole)
    (abs : List AbilityInfo) : Option AbilityInfo :=
  match abs.filter (abilityUsable now r) with
  | [] => none
  | c :: cs => some (cs.foldl abilityBetter c)

/-- A left fold by a selector that always answers one of its two
arguments stays inside the seed and the folded list. -/
lemma foldl_choice {α : Type} (f : α → α → α)
    (hf : ∀ cur a, f cur a = cur ∨ f cur a = a) :
    ∀ (l : List α) (c : α), l.foldl f c = c ∨ l.foldl f c ∈ l := by
  intro l
  induction l with
  | nil =>
    intro c
    exact Or.inl rfl
  | cons a t ih =>
    intro c
    simp only [List.foldl_cons]
    rcases ih (f c a) with h | h
    · rcases hf c a with h2 | h2
      · exact Or.inl (h.trans h2)
      · refine Or.inr ?_
        rw [h, h2]
        exact List.mem_cons_self a t
    · exact Or.inr (List.mem_cons_of_mem a h)

/-- The ability comparator answers one of its two arguments. -/
lemma abilityBetter_choice (cur a : AbilityInfo) :
    abilityBetter cur a = cur ∨ abilityBetter cur a = a := by
  unfold abilityBetter
  repeat' split
  · exact Or.inr rfl
  · exact Or.inr rfl
  · exact Or.inl rfl

/-- Whatever `selectBestAbility` returns was one of the usable
candidates. -/
lemma selectBestAbility_usable (now : Nat) (r : AbilityRole)
    (abs : List AbilityInfo) (a : AbilityInfo)
    (h : selectBestAbility now r abs = some a) :
    abilityUsable now r a = true := by
  unfold selectBestAbility at h
  rcases hf : abs.filter (abilityUsable now r) with _ | ⟨c, cs⟩
  · rw [hf] at h
    exact absurd h (by simp)
  · rw [hf] at h
    simp only [Option.some.injEq] at h
    have hmem : a ∈ c :: cs := by
      rcases foldl_choice abilityBetter abilityBetter_choice cs c with
        h1 | h1
      · rw [← h, h1]
        exact List.mem_cons_self c cs
      · rw [← h]
        exact List.mem_cons_of_mem c h1
    have : a ∈ abs.filter (abilityUsable now r) := hf ▸ hmem
    exact (List.mem_filter.mp this).2

/-- C6: an ability reports on-cooldown exactly when the elapsed
wall-clock time since its last use is smaller than its declared
cooldown duration (timestamp-derived, milliseconds against
cooldown × 1000), and ability selection never returns an ability whose
elapsed time since last use is below its declared cooldown. -/
theorem cooldown_respected :
    (∀ (now : Nat) (a : AbilityInfo),
      isOnCooldown now a = true ↔
        ((now - a.lastUsed : Nat) : ℚ) < a.cooldown * 1000) ∧
    (∀ (now : Nat) (r : AbilityRole) (abs : List AbilityInfo)
        (a : AbilityInfo),
      selectBestAbility now r abs = some a →
        a.cooldown * 1000 ≤ ((now - a.lastUsed : Nat) : ℚ)) := by
  constructor
  · intro now a
    simp [isOnCooldown]
  · intro now r abs a h
    have hu := selectBestAbility_usable now r abs a h
    unfold abilityUsable at hu
    simp only [Bool.and_eq_true, Bool.not_eq_true'] at hu
    have := hu.2
    unfold isOnCooldown at this
    simpa using this

/-- A ready offensive ability: cooldown 3 s, last used 10 s ago. -/
def fireball : AbilityInfo :=
  { name := "Fireball", keyBinding := 49, cooldown := 3, range := 30,
    manaCost := 25, isOffensive := true, isDefensive := false,
    isMovement := false, priority := 5, conditionOk := true,
    lastUsed := 0 }

/-- C6 witness: selecting from the single ready ability at t = 10 s
certifies its cooldown elapsed. -/
theorem cooldown_respected_witness :
    fireball.cooldown * 1000 ≤ ((10000 - fireball.lastUsed : Nat) : ℚ) :=
  cooldown_respected.2 10000 .offensive [fireball] fireball
    (by simp only [selectBestAbility, abilityUsable, roleMatches,
          isOnCooldown, fireball, List.filter]
        norm_num)

/-! Navigation Engine: exploration grid.  NavigationSystem.h declares
`markAreaAsExplored`, `m_explorationGrid` and `getExplorationProgress`
but no NavigationSystem.cpp exists in the repository, so the grid is
modelled from the spec. -/

/-- Modelled from the spec: the missing NavigationSystem exploration
grid state (`m_explorationGrid` with `m_gridWidth`, `m_gridHeight`,
`m_gridResolution`) — a coarse visited grid over world coordinates,
cells in row-major order. -/
structure ExplorationGrid where
  width : Nat
  height : Nat
  resolution : ℚ
  cells : List Bool
deriving DecidableEq, Repr

/-- Squared distance between two planar points. -/
def pointDistSq (a b : ℚ × ℚ) : ℚ :=
  (a.1 - b.1) * (a.1 - b.1) + (a.2 - b.2) * (a.2 - b.2)

/-- World-space center of the row-major cell at index `i`. -/
def cellCenter (g : ExplorationGrid) (i : Nat) : ℚ × ℚ :=
  (((i % g.width : Nat) : ℚ) * g.resolution,
   ((i / g.width : Nat) : ℚ) * g.resolution)

/-- Modelled from the spec: the cell sweep of the missing
NavigationSystem::markAreaAsExplored — a cell becomes visited when its
center lies within the radius of the agent's position, and an already
visited cell is never unmarked. -/
def markCells (g : ExplorationGrid) (center : ℚ × ℚ) (radius : ℚ) :
    Nat → List Bool → List Bool
  | _, [] => []
  | i, b :: rest =>
    (b || decide (pointDistSq (cellCenter g i) center ≤ radius * radius))
      :: markCells g center radius (i + 1) rest

/-- Modelled from the spec: the missing
NavigationSystem::markAreaAsExplored — marks every cell whose center is
within `radius` of `center` as visited. -/
def markAreaAsExplored (center : ℚ × ℚ) (radius : ℚ)
    (g : ExplorationGrid) : ExplorationGrid :=
  { g with cells := markCells g center radius 0 g.cells }

/-- Number of visited cells. -/
def visitedCount (g : ExplorationGrid) : Nat :=
  g.cells.countP (fun b => b)

/-- Modelled from the spec: the missing
NavigationSystem::getExplorationProgress — visited cells over total
cells. -/
def explorationProgress (g : ExplorationGrid) : ℚ :=
  ((visitedCount g : ℚ)) / ((g.cells.length : ℚ))

/-- A sequence of per-tick mark operations applied in order. -/
def applyMarks (ops : List ((ℚ × ℚ) × ℚ)) (g : ExplorationGrid) :
    ExplorationGrid :=
  ops.foldl (fun h p => markAreaAsExplored p.1 p.2 h) g

/-- Marking preserves the number of cells. -/
lemma markCells_length (g : ExplorationGrid) (c : ℚ × ℚ) (r : ℚ) :
    ∀ (i : Nat) (l : List Bool),
      (markCells g c r i l).length = l.length := by
  intro i l
  induction l generalizing i with
  | nil => rfl
  | cons b rest ih => simp [markCells, ih]

/-- A visited cell stays visited across a mark pass. -/
lemma markCells_preserves_true (g : ExplorationGrid) (c : ℚ × ℚ)
    (r : ℚ) :
    ∀ (i k : Nat) (l : List Bool),
      l.get? k = some true → (markCells g c r i l).get? k = some true := by
  intro i k l
  induction l generalizing i k with
  | nil => simp
  | cons b rest ih =>
    cases k with
    | zero =>
      intro h
      simp only [List.get?_cons_zero] at h
      simp [markCells, List.get?_cons_zero, Option.some.inj h]
    | succ k =>
      intro h
      simp only [List.get?_cons_succ] at h
      simp only [markCells, List.get?_cons_succ]
      exact ih (i + 1) k h

/-- The visited count never drops across a mark pass. -/
lemma markCells_countP_le (g : ExplorationGrid) (c : ℚ × ℚ) (r : ℚ) :
    ∀ (i : Nat) (l : List Bool),
      l.countP (fun b => b) ≤
        (markCells g c r i l).countP (fun b => b) := by
  intro i l
  induction l generalizing i with
  | nil => simp [markCells]
  | cons b rest ih =>
    simp only [markCells, List.countP_cons]
    have hb : (if b = true then 1 else 0) ≤
        (if (b || decide (pointDistSq (cellCenter g i) c ≤ r * r)) = true
         then 1 else 0) := by
      cases b <;> simp
    exact Nat.add_le_add (ih (i + 1)) hb

/-- Progress comparison for grids of equal size. -/
lemma progress_mono_of (g h : ExplorationGrid)
    (hlen : h.cells.length = g.cells.length)
    (hv : visitedCount g ≤ visitedCount h) :
    explorationProgress g ≤ explorationProgress h := by
  unfold explorationProgress
  rw [hlen]
  rcases Nat.eq_zero_or_pos g.cells.length with h0 | hpos
  · simp [h0]
  · have hc : (0 : ℚ) < (g.cells.length : ℚ) := by exact_mod_cast hpos
    exact (div_le_div_iff_of_pos_right hc).mpr (by exact_mod_cast hv)

/-- One mark pass never decreases the progress ratio. -/
lemma mark_progress_mono (c : ℚ × ℚ) (r : ℚ) (g : ExplorationGrid) :
    explorationProgress g ≤
      explorationProgress (markAreaAsExplored c r g) := by
  apply progress_mono_of
  · exact markCells_length g c r 0 g.cells
  · exact markCells_countP_le g c r 0 g.cells

/-- C8: visited cells are never unmarked — a visited cell survives any
mark pass — and the exploration progress ratio (visited over total) is
monotonically non-decreasing over every sequence of mark operations. -/
theorem exploration_progress_monotone :
    (∀ (c : ℚ × ℚ) (r : ℚ) (g : ExplorationGrid) (k : Nat),
      g.cells.get? k = some true →
        (markAreaAsExplored c r g).cells.get? k = some true) ∧
    (∀ (g : ExplorationGrid) (ops : List ((ℚ × ℚ) × ℚ)),
      explorationProgress g ≤ explorationProgress (applyMarks ops g)) := by
  constructor
  · intro c r g k h
    exact markCells_preserves_true g c r 0 k g.cells h
  · intro g ops
    induction ops generalizing g with
    | nil => simp [applyMarks]
    | cons p t ih =>
      calc explorationProgress g
          ≤ explorationProgress (markAreaAsExplored p.1 p.2 g) :=
            mark_progress_mono p.1 p.2 g
        _ ≤ explorationProgress
              (applyMarks t (markAreaAsExplored p.1 p.2 g)) :=
            ih (markAreaAsExplored p.1 p.2 g)
        _ = explorationProgress (applyMarks (p :: t) g) := by
            simp [applyMarks]

/-- A 2×1 grid with its first cell already visited. -/
def gridTwo : ExplorationGrid :=
  { width := 2, height := 1, resolution := 2, cells := [true, false] }

/-- C8 witness: the already visited cell of the 2×1 grid stays visited
across a concrete mark pass. -/
theorem exploration_progress_monotone_witness :
    (markAreaAsExplored (0, 0) 5 gridTwo).cells.get? 0 = some true :=
  exploration_progress_monotone.1 (0, 0) 5 gridTwo 0 rfl

/-! Navigation Engine: pathfinding.  NavigationSystem.h declares
`aStar`, `findPath`, `getNeighbors` and `heuristic` but no
NavigationSystem.cpp exists in the repository, so the planner is
modelled from the spec: grid-based A* over a discretized occupancy
grid, node cost g + h with the straight-line (Euclidean) heuristic, a
bounded search budget, and a waypoint-sequence result. -/

/-- A grid cell, `(x, y)`. -/
abbrev Cell := Nat × Nat

/-- Modelled from the spec: the missing NavigationSystem occupancy grid
— a row-major walkability grid, `index = y * width + x`. -/
structure NavGrid where
  width : Nat
  height : Nat
  walkable : List Bool
deriving DecidableEq, Repr

/-- Cell lies inside the grid. -/
def inBounds (g : NavGrid) (c : Cell) : Bool :=
  c.1 < g.width && c.2 < g.height

/-- Modelled from the spec: the missing
NavigationSystem::isPositionWalkable on the occupancy grid. -/
def isWalkable (g : NavGrid) (c : Cell) : Bool :=
  inBounds g c && (g.walkable.getD (c.2 * g.width + c.1) false)

/-- Four-connected adjacency at grid resolution. -/
def adjacent (a b : Cell) : Bool :=
  ((a.1 : ℤ) - (b.1 : ℤ)).natAbs + ((a.2 : ℤ) - (b.2 : ℤ)).natAbs = 1

/-- Modelled from the spec: the missing NavigationSystem::getNeighbors
— the walkable four-connected successors of a cell. -/
def neighbors (g : NavGrid) (c : Cell) : List Cell :=
  ([(c.1 + 1, c.2), (c.1, c.2 + 1)] ++
    (if c.1 = 0 then [] else [(c.1 - 1, c.2)]) ++
    (if c.2 = 0 then [] else [(c.1, c.2 - 1)])).filter
    (fun n => isWalkable g n)

/-- Squared straight-line distance between two cells: the square of the
Euclidean heuristic of the missing NavigationSystem::heuristic. -/
def hSq (a b : Cell) : ℤ :=
  let dx : ℤ := (a.1 : ℤ) - (b.1 : ℤ)
  let dy : ℤ := (a.2 : ℤ) - (b.2 : ℤ)
  dx * dx + dy * dy

/-- Exact decision of `g1 + sqrt s1 ≤ g2 + sqrt s2` for integer g-costs
and squared heuristics, by sign analysis and repeated squaring — the
f-cost comparison `g + h ≤ g' + h'` with the Euclidean heuristic, kept
exact instead of floating point. -/
def leAddSqrt (g1 s1 g2 s2 : ℤ) : Bool :=
  let d : ℤ := g2 - g1
  if 0 ≤ d then
    if s1 ≤ s2 then true
    else
      let c : ℤ := s1 - s2 - d * d
      if c ≤ 0 then true else decide (c * c ≤ 4 * d * d * s2)
  else
    let e : ℤ := -d
    let c : ℤ := s2 - s1 - e * e
    if c < 0 then false else decide (4 * e * e * s1 ≤ c * c)

/-- An open-list node: position, accumulated movement cost `g`
(NavigationNode::gCost), and the waypoints walked so far in reverse. -/
structure PathNode where
  pos : Cell
  gCost : Nat
  path : List Cell
deriving DecidableEq, Repr

/-- f-cost comparison of two open nodes against the goal. -/
def fLe (goal : Cell) (a b : PathNode) : Bool :=
  leAddSqrt (a.gCost : ℤ) (hSq a.pos goal) (b.gCost : ℤ) (hSq b.pos goal)

/-- Lowest-f node of the open list. -/
def pickBest (goal : Cell) : PathNode → List PathNode → PathNode
  | best, [] => best
  | best, n :: rest =>
    if fLe goal n best then pickBest goal n rest else pickBest goal best rest

/-- Modelled from the spec: the search loop of the missing
NavigationSystem::aStar — expand the lowest-f open node, close it, and
push its unvisited walkable neighbours at unit step cost; the fuel
models the bounded search budget (maximum expanded-node count). -/
def aStarLoop (g : NavGrid) (goal : Cell) :
    Nat → List PathNode → List Cell → Option (List Cell)
  | 0, _, _ => none
  | _ + 1, [], _ => none
  | fuel + 1, o :: os, closed =>
    let best := pickBest goal o os
    let rest := (o :: os).erase best
    if best.pos = goal then some best.path.reverse
    else if best.pos ∈ closed then aStarLoop g goal fuel rest closed
    else
      let succs := (neighbors g best.pos).filterMap (fun c =>
        if c ∈ closed then none
        else some { pos := c, gCost := best.gCost + 1,
                    path := c :: best.path })
      aStarLoop g goal fuel (rest ++ succs) (best.pos :: closed)

/-- Modelled from the spec: the missing NavigationSystem::aStar — a
waypoint sequence from start to goal at grid resolution, or failure
when no path exists within the search budget. -/
def aStar (g : NavGrid) (start goal : Cell) : Option (List Cell) :=
  if isWalkable g start then
    aStarLoop g goal
      (4 * (g.width * g.height + 1) * (g.width * g.height + 1))
      [{ pos := start, gCost := 0, path := [start] }] []
  else none

/-- Accumulated movement cost after following a returned path through
waypoint `k`, at unit cost per grid step. -/
def accCost (p : List Cell) (k : Nat) : Nat :=
  (p.take (k + 1)).length - 1

/-- Total cost of a waypoint sequence at unit cost per step. -/
def pathCost (p : List Cell) : Nat := p.length - 1

/-- A waypoint sequence is a walkable four-connected chain. -/
def chainOk (g : NavGrid) : List Cell → Bool
  | [] => true
  | [c] => isWalkable g c
  | a :: b :: rest =>
    isWalkable g a && adjacent a b && chainOk g (b :: rest)

/-- A path from `s` to `t`: nonempty, starts at `s`, ends at `t`, and
is a walkable four-connected chain. -/
def validPath (g : NavGrid) (s t : Cell) (p : List Cell) : Bool :=
  match p with
  | [] => false
  | c :: _ => c = s && p.getLast? = some t && chainOk g p

/-- Every cell of the grid in row-major order. -/
def allCells (g : NavGrid) : List Cell :=
  (List.range g.height).flatMap
    (fun y => (List.range g.width).map (fun x => (x, y)))

/-- The bounded test grid of the spec's wall scenario: 5×3, all
walkable except the wall cells (2,0) and (2,1) between start (0,0) and
goal (4,0). -/
def gridWall : NavGrid :=
  { width := 5, height := 3,
    walkable := [true, true, false, true, true,
                 true, true, false, true, true,
                 true, true, true, true, true] }

/-- The waypoint sequence the planner returns on `gridWall`, routing
around the wall at cost 8. -/
def wallPath : List Cell :=
  [(0, 0), (0, 1), (0, 2), (1, 2), (2, 2), (3, 2), (3, 1), (3, 0), (4, 0)]

/-- Breadth-first distances from (0,0) on `gridWall`, row-major; wall
cells carry the unused sentinel 99. -/
def dTable : List Nat := [0, 1, 99, 7, 8, 1, 2, 99, 6, 7, 2, 3, 4, 5, 6]

/-- Table lookup of `dTable`. -/
def dFun (c : Cell) : Nat := dTable.getD (c.2 * 5 + c.1) 99

/-- A distance labelling is consistent when every walkable adjacent
pair relaxes: `d b ≤ d a + 1`. -/
def checkConsistent (g : NavGrid) (d : Cell → Nat) : Bool :=
  (allCells g).all (fun a => (allCells g).all (fun b =>
    !(isWalkable g a && isWalkable g b && adjacent a b) ||
      decide (d b ≤ d a + 1)))

/-- Walkable cells are in bounds. -/
lemma walkable_inBounds (g : NavGrid) (c : Cell)
    (h : isWalkable g c = true) : inBounds g c = true := by
  unfold isWalkable at h
  exact (Bool.and_eq_true _ _ |>.mp h).1

/-- In-bounds cells appear in the cell enumeration. -/
lemma mem_allCells (g : NavGrid) (c : Cell) (h : inBounds g c = true) :
    c ∈ allCells g := by
  unfold inBounds at h
  simp only [Bool.and_eq_true, decide_eq_true_eq] at h
  unfold allCells
  simp only [List.mem_flatMap, List.mem_map, List.mem_range]
  exact ⟨c.2, h.2, c.1, h.1, rfl⟩

/-- A passed consistency check yields the pointwise relaxation
property. -/
lemma consistent_of_check (g : NavGrid) (d : Cell → Nat)
    (hchk : checkConsistent g d = true) :
    ∀ a b, isWalkable g a = true → isWalkable g b = true →
      adjacent a b = true → d b ≤ d a + 1 := by
  intro a b ha hb hadj
  have hma := mem_allCells g a (walkable_inBounds g a ha)
  have hmb := mem_allCells g b (walkable_inBounds g b hb)
  unfold checkConsistent at hchk
  have h1 := List.all_eq_true.mp hchk a hma
  have h2 := List.all_eq_true.mp h1 b hmb
  simp only [ha, hb, hadj, Bool.and_self, Bool.not_true, Bool.false_or,
    decide_eq_true_eq] at h2
  exact h2

/-- The head of a valid chain is walkable. -/
lemma chainOk_head (g : NavGrid) (b : Cell) (rest : List Cell)
    (h : chainOk g (b :: rest) = true) : isWalkable g b = true := by
  cases rest with
  | nil => exact h
  | cons c t =>
    unfold chainOk at h
    simp only [Bool.and_eq_true] at h
    exact h.1.1

/-- Any consistent distance labelling lower-bounds the step count of
every walkable chain: `d` at the chain's end is at most `d` at its
start plus its length. -/
lemma chain_lower_bound (g : NavGrid) (d : Cell → Nat)
    (hd : ∀ a b, isWalkable g a = true → isWalkable g b = true →
      adjacent a b = true → d b ≤ d a + 1) :
    ∀ (p : List Cell) (a t : Cell), chainOk g (a :: p) = true →
      (a :: p).getLast? = some t → d t ≤ d a + p.length := by
  intro p
  induction p with
  | nil =>
    intro a t _ hlast
    simp only [List.getLast?_singleton, Option.some.injEq] at hlast
    subst hlast
    simp
  | cons b rest ih =>
    intro a t hchain hlast
    unfold chainOk at hchain
    simp only [Bool.and_eq_true] at hchain
    obtain ⟨⟨hwa, hadj⟩, hcr⟩ := hchain
    have hwb := chainOk_head g b rest hcr
    have hlast2 : (b :: rest).getLast? = some t := by
      rw [List.getLast?_cons_cons] at hlast
      exact hlast
    have := ih b t hcr hlast2
    have hstep := hd a b hwa hwb hadj
    simp only [List.length_cons]
    omega

set_option maxRecDepth 8000 in
/-- C9: the accumulated cost along any waypoint sequence the planner
returns is non-decreasing (unit step costs accumulate monotonically),
and on the bounded wall grid the planner's path is a valid walkable
chain of total cost 8, which is at most the cost of every alternative
path between the same start and goal. -/
theorem aStar_monotone_and_optimal :
    (∀ (g : NavGrid) (s t : Cell) (p : List Cell),
      aStar g s t = some p →
        ∀ i j : Nat, i ≤ j → accCost p i ≤ accCost p j) ∧
    (aStar gridWall (0, 0) (4, 0) = some wallPath ∧
     validPath gridWall (0, 0) (4, 0) wallPath = true ∧
     pathCost wallPath = 8) ∧
    (∀ q : List Cell, validPath gridWall (0, 0) (4, 0) q = true →
      pathCost wallPath ≤ pathCost q) := by
  refine ⟨?_, ⟨by decide, by decide, by decide⟩, ?_⟩
  · intro g s t p _ i j hij
    simp only [accCost, List.length_take]
    omega
  · intro q hq
    cases q with
    | nil => exact absurd hq (by simp [validPath])
    | cons c rest =>
      unfold validPath at hq
      simp only [Bool.and_eq_true, decide_eq_true_eq] at hq
      obtain ⟨⟨hc, hlast⟩, hchain⟩ := hq
      subst hc
      have hlb := chain_lower_bound gridWall dFun
        (consistent_of_check gridWall dFun (by decide))
        rest (0, 0) (4, 0) hchain hlast
      have h1 : dFun (4, 0) = 8 := by decide
      have h2 : dFun (0, 0) = 0 := by decide
      have h3 : wallPath.length = 9 := by decide
      simp only [pathCost, List.length_cons]
      omega

set_option maxRecDepth 8000 in
/-- C9 witness: the planner's concrete run on the wall grid, its cost
monotonicity between waypoints 2 and 5, and the optimality bound
applied to the returned path itself. -/
theorem aStar_monotone_and_optimal_witness :
    accCost wallPath 2 ≤ accCost wallPath 5 ∧
    pathCost wallPath ≤ pathCost wallPath :=
  ⟨aStar_monotone_and_optimal.1 gridWall (0, 0) (4, 0) wallPath
      (by decide) 2 5 (by decide),
   aStar_monotone_and_optimal.2.2 wallPath (by decide)⟩

end TorchBot
